import Mathlib

set_option maxRecDepth 100000

/-!
Shallow embedding of the pngme chunk codec (src/chunk_type.rs and
src/chunk.rs) together with proofs checking the specification's claims
against it.

Conventions of the embedding:
* Rust machine integers are modelled as `Nat`, with an explicit `% 2^32`
  exactly where the Rust code truncates (the `as u32` cast in
  `Chunk::new` and the wrapping `u32` addition in `Chunk::size`).
* A byte slice is a `List Nat`; well-formed inputs have all elements
  below 256 (`u8`), which theorems assume where it matters.
* Fallible Rust functions return a result type; a Rust panic (an
  out-of-bounds slice index such as `value[0..4]` on a short slice) is
  the distinguished outcome `PResult.crash`, which is not an error
  return.
-/

/-- Tests whether a byte is ASCII alphabetic, mirroring Rust
`u8::is_ascii_alphabetic`: the ranges 0x41-0x5A and 0x61-0x7A. -/
def isAsciiAlphabetic (b : Nat) : Bool :=
  (decide (65 ≤ b) && decide (b ≤ 90)) || (decide (97 ≤ b) && decide (b ≤ 122))

/-- The four bytes of a PNG chunk type, mirroring
`struct ChunkType([u8; 4])` in src/chunk_type.rs. -/
structure ChunkType where
  b0 : Nat
  b1 : Nat
  b2 : Nat
  b3 : Nat
deriving DecidableEq

/-- Mirrors `ChunkType::bytes` (src/chunk_type.rs): the underlying four
bytes, in order. -/
def ChunkType.bytes (t : ChunkType) : List Nat :=
  [t.b0, t.b1, t.b2, t.b3]

/-- Mirrors `ChunkType::is_valid` (src/chunk_type.rs):
`(self.0[2] & 0b00100000) >> 5 == 0`. -/
def ChunkType.isValid (t : ChunkType) : Bool :=
  ((t.b2 &&& 32) >>> 5) == 0

/-- Mirrors `ChunkType::is_critical` (src/chunk_type.rs):
`(self.0[0] & 0b00100000) >> 5 == 0`. -/
def ChunkType.isCritical (t : ChunkType) : Bool :=
  ((t.b0 &&& 32) >>> 5) == 0

/-- Mirrors `ChunkType::is_public` (src/chunk_type.rs):
`(self.0[1] & 0b00100000) >> 5 == 0`. -/
def ChunkType.isPublic (t : ChunkType) : Bool :=
  ((t.b1 &&& 32) >>> 5) == 0

/-- Mirrors `ChunkType::is_reserved_bit_valid` (src/chunk_type.rs),
which just calls `is_valid`. -/
def ChunkType.isReservedBitValid (t : ChunkType) : Bool :=
  t.isValid

/-- Mirrors `ChunkType::is_safe_to_copy` (src/chunk_type.rs):
`(self.0[3] & 0b00100000) >> 5 == 1`. -/
def ChunkType.isSafeToCopy (t : ChunkType) : Bool :=
  ((t.b3 &&& 32) >>> 5) == 1

/-- The error outcomes of the codec. The Rust code reports errors as
`anyhow` messages; each constructor stands for one distinct `bail!`
site (`ChecksumMismatch` keeps the two values the message carries). -/
inductive ChunkError where
  | notAsciiAlphabetic
  | reservedBitNotValid
  | lengthTooLarge
  | checksumMismatch (expected found : Nat)
deriving DecidableEq

/-- Result of `ChunkType::try_from`, mirroring Rust
`Result<ChunkType, Error>`. -/
inductive CtResult where
  | ok (t : ChunkType)
  | error (e : ChunkError)
deriving DecidableEq

/-- Mirrors `impl TryFrom<[u8; 4]> for ChunkType` (src/chunk_type.rs):
the loop checks each byte for ASCII-alphabeticity in index order and,
at index 2, additionally compares `val & 0b00100000` with `1` (the
reserved-bit branch as written in the source). -/
def ChunkType.tryFrom (b0 b1 b2 b3 : Nat) : CtResult :=
  if !(isAsciiAlphabetic b0) then .error .notAsciiAlphabetic
  else if !(isAsciiAlphabetic b1) then .error .notAsciiAlphabetic
  else if !(isAsciiAlphabetic b2) then .error .notAsciiAlphabetic
  else if (b2 &&& 32) == 1 then .error .reservedBitNotValid
  else if !(isAsciiAlphabetic b3) then .error .notAsciiAlphabetic
  else .ok ⟨b0, b1, b2, b3⟩

/-- Applies `ChunkType.tryFrom` to a four-element byte list, mirroring
`let slice: [u8; 4] = value[4..8].try_into()?` followed by
`ChunkType::try_from(slice)` in src/chunk.rs (the `try_into` cannot
fail there because the slice has exactly four bytes; the default
branch is unreachable in `parseChunk`). -/
def chunkTypeTryFromList (l : List Nat) : CtResult :=
  match l with
  | [a, b, c, d] => ChunkType.tryFrom a b c d
  | _ => .error .notAsciiAlphabetic

/-- One shift-and-conditionally-xor round of the reflected CRC-32
computation with polynomial 0xEDB88320. -/
def crc32Step (c : Nat) : Nat :=
  if c &&& 1 == 1 then (c >>> 1) ^^^ 0xEDB88320 else c >>> 1

/-- Folds one input byte into the running CRC state: xor the byte into
the low bits, then run eight `crc32Step` rounds. -/
def crc32Update (c b : Nat) : Nat :=
  crc32Step (crc32Step (crc32Step (crc32Step
    (crc32Step (crc32Step (crc32Step (crc32Step (c ^^^ b))))))))

/-- Modelled from the spec: the CRC-32/ISO-HDLC checksum (polynomial
0xEDB88320 reflected, initial value 0xFFFFFFFF, reflected input and
output, final xor 0xFFFFFFFF), which the Rust code takes from the
external `crc` crate as `CRC_32_ISO_HDLC`; the crate is not part of
this repository, so the primitive is defined here from the spec's
parameters and validated below against the spec's `IEND` test vector
and the repository's own test values. -/
def crc32 (l : List Nat) : Nat :=
  (l.foldl crc32Update 0xFFFFFFFF) ^^^ 0xFFFFFFFF

/-- A PNG chunk, mirroring `struct Chunk` in src/chunk.rs. -/
structure Chunk where
  length : Nat
  chunkType : ChunkType
  data : List Nat
  crc : Nat
deriving DecidableEq

/-- Mirrors `Chunk::new` (src/chunk.rs): the CRC is computed over the
four type bytes followed by the payload, and the stored length is
`data.len() as u32`, a cast that truncates modulo 2^32. -/
def Chunk.new (t : ChunkType) (data : List Nat) : Chunk :=
  { length := data.length % 4294967296
    chunkType := t
    data := data
    crc := crc32 (t.bytes ++ data) }

/-- Big-endian bytes of a `u32`, mirroring `u32::to_be_bytes`. -/
def toBE4 (n : Nat) : List Nat :=
  [n / 16777216 % 256, n / 65536 % 256, n / 256 % 256, n % 256]

/-- Value of four big-endian bytes, mirroring `u32::from_be_bytes`; the
default branch is unreachable where it is used (the argument is always
a four-byte slice). -/
def fromBE4 (l : List Nat) : Nat :=
  match l with
  | [a, b, c, d] => a * 16777216 + b * 65536 + c * 256 + d
  | _ => 0

/-- The sub-slice `l[i..j]` of a byte slice, as the Rust range
indexing produces it when `i ≤ j ≤ l.length`. -/
def listSlice (l : List Nat) (i j : Nat) : List Nat :=
  (l.drop i).take (j - i)

/-- Mirrors `Chunk::as_bytes` (src/chunk.rs): big-endian length, the
four type bytes, the payload, big-endian CRC. -/
def Chunk.asBytes (c : Chunk) : List Nat :=
  toBE4 c.length ++ c.chunkType.bytes ++ c.data ++ toBE4 c.crc

/-- Mirrors `Chunk::size` (src/chunk.rs): `(4 + 4 + self.length + 4) as
usize`, a `u32` sum (wrapping modulo 2^32) widened to `usize`. -/
def Chunk.size (c : Chunk) : Nat :=
  (12 + c.length) % 4294967296

/-- Outcome of parsing a chunk: a chunk, an error return, or a Rust
panic (`crash`) from an out-of-bounds slice index. -/
inductive PResult (α : Type) where
  | ok (a : α)
  | fail (e : ChunkError)
  | crash
deriving DecidableEq

/-- Mirrors `impl TryFrom<&[u8]> for Chunk` (src/chunk.rs), including
its two slips: the guard `length > 2e31 as u32` compares against the
saturating cast of the float 2e31 = 2*10^31, which is `u32::MAX` =
4294967295, and every slice index `value[a..b]` panics (`crash`) when
`b > value.len()` instead of returning an error. -/
def parseChunk (value : List Nat) : PResult Chunk :=
  if 4 ≤ value.length then
    let length := fromBE4 (listSlice value 0 4)
    if 4294967295 < length then .fail .lengthTooLarge
    else if 8 ≤ value.length then
      match chunkTypeTryFromList (listSlice value 4 8) with
      | .error e => .fail e
      | .ok chunkType =>
        if 8 + length ≤ value.length then
          let data := listSlice value 8 (8 + length)
          if 8 + length + 4 ≤ value.length then
            let crc := fromBE4 (listSlice value (8 + length) (8 + length + 4))
            let checksum := crc32 (listSlice value 4 (8 + length))
            if crc ≠ checksum then .fail (.checksumMismatch checksum crc)
            else .ok { length := length, chunkType := chunkType, data := data, crc := crc }
          else .crash
        else .crash
    else .crash
  else .crash

/-- All four bytes of a chunk type are ASCII alphabetic: the validity
rule that `ChunkType.tryFrom` enforces. -/
def allAlphabetic (t : ChunkType) : Bool :=
  isAsciiAlphabetic t.b0 && isAsciiAlphabetic t.b1 &&
    isAsciiAlphabetic t.b2 && isAsciiAlphabetic t.b3

/-- The chunk type "RuSt" used by the repository's tests. -/
def rustType : ChunkType :=
  ⟨82, 117, 83, 116⟩

/-- ASCII bytes of "This is where your secret message will be!", the
42-byte payload of the canonical fixture. -/
def secretMessage : List Nat :=
  [84, 104, 105, 115, 32, 105, 115, 32, 119, 104, 101, 114, 101, 32,
   121, 111, 117, 114, 32, 115, 101, 99, 114, 101, 116, 32, 109, 101,
   115, 115, 97, 103, 101, 32, 119, 105, 108, 108, 32, 98, 101, 33]

/-- The 54-byte serialization of the canonical fixture: length 42,
type "RuSt", the secret message, CRC 2882656334 = 0xABD1D84E. -/
def canonicalChunkBytes : List Nat :=
  [0, 0, 0, 42, 82, 117, 83, 116] ++ secretMessage ++ [171, 209, 216, 78]

/-- The canonical fixture with its stored CRC changed to 2882656333. -/
def tamperedChunkBytes : List Nat :=
  [0, 0, 0, 42, 82, 117, 83, 116] ++ secretMessage ++ [171, 209, 216, 77]

/-- The canonical fixture with its length field replaced by
0x80000000 = 2^31. -/
def overlargeLengthBytes : List Nat :=
  [128, 0, 0, 0, 82, 117, 83, 116] ++ secretMessage ++ [171, 209, 216, 78]

/-- Sanity check of the CRC-32/ISO-HDLC model against the PNG
specification's test vector: CRC32("IEND") = 0xAE426082. -/
lemma crc32_iend : crc32 [73, 69, 78, 68] = 0xAE426082 := by
  decide

/-- Sanity check against the repository's own tests: the CRC over
"RuSt" followed by the canonical payload is 2882656334; the fold is
evaluated four bytes at a time to keep each step small. -/
lemma crc32_canonical : crc32 (rustType.bytes ++ secretMessage) = 2882656334 := by
  have e : rustType.bytes ++ secretMessage
      = [82, 117, 83, 116] ++ ([84, 104, 105, 115] ++ ([32, 105, 115, 32] ++
        ([119, 104, 101, 114] ++ ([101, 32, 121, 111] ++ ([117, 114, 32, 115] ++
        ([101, 99, 114, 101] ++ ([116, 32, 109, 101] ++ ([115, 115, 97, 103] ++
        ([101, 32, 119, 105] ++ ([108, 108, 32, 98] ++ [101, 33])))))))))) := by
    decide
  rw [crc32, e]
  rw [List.foldl_append, List.foldl_append, List.foldl_append, List.foldl_append,
    List.foldl_append, List.foldl_append, List.foldl_append, List.foldl_append,
    List.foldl_append, List.foldl_append, List.foldl_append]
  rw [show List.foldl crc32Update 4294967295 [82, 117, 83, 116] = 729544387 from by decide]
  rw [show List.foldl crc32Update 729544387 [84, 104, 105, 115] = 3395216882 from by decide]
  rw [show List.foldl crc32Update 3395216882 [32, 105, 115, 32] = 76006015 from by decide]
  rw [show List.foldl crc32Update 76006015 [119, 104, 101, 114] = 3296048446 from by decide]
  rw [show List.foldl crc32Update 3296048446 [101, 32, 121, 111] = 174442452 from by decide]
  rw [show List.foldl crc32Update 174442452 [117, 114, 32, 115] = 2459250755 from by decide]
  rw [show List.foldl crc32Update 2459250755 [101, 99, 114, 101] = 3645203103 from by decide]
  rw [show List.foldl crc32Update 3645203103 [116, 32, 109, 101] = 3991588506 from by decide]
  rw [show List.foldl crc32Update 3991588506 [115, 115, 97, 103] = 3018541135 from by decide]
  rw [show List.foldl crc32Update 3018541135 [101, 32, 119, 105] = 850995998 from by decide]
  rw [show List.foldl crc32Update 850995998 [108, 108, 32, 98] = 2131465205 from by decide]
  rw [show List.foldl crc32Update 2131465205 [101, 33] = 1412310961 from by decide]
  decide

/-- ASCII alphabetic bytes are below 256. -/
lemma isAsciiAlphabetic_lt {b : Nat} (h : isAsciiAlphabetic b = true) : b < 256 := by
  simp only [isAsciiAlphabetic, Bool.or_eq_true, Bool.and_eq_true, decide_eq_true_eq] at h
  omega

/-- For a byte, masking with 32 never yields 1, so the reserved-bit
branch of `ChunkType.tryFrom` is dead. -/
lemma land32_ne_one {b : Nat} (h : b < 256) : ¬ (b &&& 32 = 1) := by
  revert h
  revert b
  decide

/-- Closed form of `ChunkType.tryFrom`: it succeeds, with the input
bytes stored unchanged, exactly when all four bytes are ASCII
alphabetic, and the only error it ever returns is the
not-ASCII-alphabetic one. -/
lemma tryFrom_eq (b0 b1 b2 b3 : Nat) :
    ChunkType.tryFrom b0 b1 b2 b3 =
      if isAsciiAlphabetic b0 && isAsciiAlphabetic b1 &&
          isAsciiAlphabetic b2 && isAsciiAlphabetic b3
      then CtResult.ok ⟨b0, b1, b2, b3⟩
      else CtResult.error ChunkError.notAsciiAlphabetic := by
  unfold ChunkType.tryFrom
  by_cases h0 : isAsciiAlphabetic b0 <;>
    by_cases h1 : isAsciiAlphabetic b1 <;>
      by_cases h2 : isAsciiAlphabetic b2 <;>
        by_cases h3 : isAsciiAlphabetic b3 <;>
          simp [h0, h1, h2, h3]
  all_goals
    exact land32_ne_one (isAsciiAlphabetic_lt h2)

/-- A successful `chunkTypeTryFromList` returns a chunk type holding
exactly the four input bytes. -/
lemma chunkTypeTryFromList_bytes {l : List Nat} {t : ChunkType}
    (h : chunkTypeTryFromList l = CtResult.ok t) : t.bytes = l := by
  unfold chunkTypeTryFromList at h
  split at h
  case h_1 a b c d =>
    rw [tryFrom_eq] at h
    split at h
    · cases h
      rfl
    · cases h
  case h_2 =>
    cases h

/-- A chunk type whose four bytes are all ASCII alphabetic is
reconstructed unchanged by `chunkTypeTryFromList` from its own bytes. -/
lemma chunkTypeTryFromList_of_allAlphabetic {t : ChunkType}
    (h : allAlphabetic t = true) : chunkTypeTryFromList t.bytes = CtResult.ok t := by
  simp only [allAlphabetic, Bool.and_eq_true] at h
  obtain ⟨⟨⟨h0, h1⟩, h2⟩, h3⟩ := h
  show ChunkType.tryFrom t.b0 t.b1 t.b2 t.b3 = CtResult.ok t
  rw [tryFrom_eq]
  simp [h0, h1, h2, h3]

/-- Length of a slice that lies inside the list. -/
lemma listSlice_length {l : List Nat} {i j : Nat} (hj : j ≤ l.length) :
    (listSlice l i j).length = j - i := by
  simp only [listSlice, List.length_take, List.length_drop]
  omega

/-- A slice whose right end stays inside the left part of an appended
list ignores the right part. -/
lemma listSlice_append_left {x : List Nat} (y : List Nat) {i j : Nat}
    (hj : j ≤ x.length) : listSlice (x ++ y) i j = listSlice x i j := by
  unfold listSlice
  rw [List.drop_append_eq_append_drop]
  rcases le_or_lt i x.length with hi | hi
  · rw [List.take_append_of_le_length (by simp; omega)]
  · have hji : j - i = 0 := by omega
    have hxi : x.drop i = [] := by
      apply List.eq_nil_of_length_eq_zero
      simp
      omega
    simp [hji, hxi]

/-- A slice that starts past the left part of an appended list reads
only the right part. -/
lemma listSlice_append_right (x : List Nat) {y : List Nat} {i j : Nat}
    (hi : x.length ≤ i) :
    listSlice (x ++ y) i j = listSlice y (i - x.length) (j - x.length) := by
  unfold listSlice
  rw [List.drop_append_eq_append_drop]
  have hxi : x.drop i = [] := by
    apply List.eq_nil_of_length_eq_zero
    simp
    omega
  rw [hxi, List.nil_append]
  congr 1
  omega

/-- Adjacent slices concatenate to the enclosing slice. -/
lemma listSlice_concat (l : List Nat) {i j k : Nat} (h1 : i ≤ j) (h2 : j ≤ k) :
    listSlice l i j ++ listSlice l j k = listSlice l i k := by
  unfold listSlice
  have hd : l.drop j = (l.drop i).drop (j - i) := by
    rw [List.drop_drop]
    congr 1
    omega
  rw [hd, ← List.take_add]
  congr 1
  omega

/-- The slice of the whole list is the list. -/
lemma listSlice_all (l : List Nat) : listSlice l 0 l.length = l := by
  simp [listSlice]

/-- Big-endian encoding of a `u32` followed by decoding is the
identity. -/
lemma fromBE4_toBE4 {n : Nat} (h : n < 4294967296) : fromBE4 (toBE4 n) = n := by
  simp only [toBE4, fromBE4]
  omega

/-- The big-endian encoding of a `u32` has four bytes, each below 256. -/
lemma toBE4_lt (n : Nat) : ∀ x ∈ toBE4 n, x < 256 := by
  simp only [toBE4, List.mem_cons, List.not_mem_nil, or_false]
  rintro x (rfl | rfl | rfl | rfl) <;> omega

/-- One CRC round keeps the state below 2^32. -/
lemma crc32Step_lt {c : Nat} (h : c < 4294967296) : crc32Step c < 4294967296 := by
  have h32 : (4294967296 : Nat) = 2 ^ 32 := by norm_num
  have hs : c >>> 1 < 4294967296 := by
    rw [Nat.shiftRight_eq_div_pow]
    exact lt_of_le_of_lt (Nat.div_le_self _ _) h
  unfold crc32Step
  split
  · rw [h32]
    exact Nat.xor_lt_two_pow (h32 ▸ hs) (by norm_num)
  · exact hs

/-- Folding a byte into the CRC state keeps it below 2^32. -/
lemma crc32Update_lt {c b : Nat} (hc : c < 4294967296) (hb : b < 256) :
    crc32Update c b < 4294967296 := by
  have h32 : (4294967296 : Nat) = 2 ^ 32 := by norm_num
  have h0 : c ^^^ b < 4294967296 := by
    rw [h32]
    exact Nat.xor_lt_two_pow (h32 ▸ hc) (lt_trans hb (by norm_num))
  unfold crc32Update
  exact crc32Step_lt (crc32Step_lt (crc32Step_lt (crc32Step_lt
    (crc32Step_lt (crc32Step_lt (crc32Step_lt (crc32Step_lt h0)))))))

/-- The CRC state stays below 2^32 along the fold over a byte list. -/
lemma crc32_foldl_lt {l : List Nat} (hb : ∀ x ∈ l, x < 256) :
    ∀ {c : Nat}, c < 4294967296 → l.foldl crc32Update c < 4294967296 := by
  induction l with
  | nil => intro c hc; exact hc
  | cons a l ih =>
    intro c hc
    have ha : a < 256 := hb a (List.mem_cons_self a l)
    have hb' : ∀ x ∈ l, x < 256 := fun x hx => hb x (List.mem_cons_of_mem a hx)
    exact ih hb' (crc32Update_lt hc ha)

/-- The CRC-32 of a byte list is a `u32`. -/
lemma crc32_lt {l : List Nat} (hb : ∀ x ∈ l, x < 256) : crc32 l < 4294967296 := by
  have h32 : (4294967296 : Nat) = 2 ^ 32 := by norm_num
  unfold crc32
  rw [h32]
  exact Nat.xor_lt_two_pow (h32 ▸ crc32_foldl_lt hb (by norm_num)) (by norm_num)

/-- Constructor form of a successful parse: under the branch conditions
of `parseChunk`, it returns the assembled chunk. -/
lemma parseChunk_eq_ok {value : List Nat} {len : Nat} {t : ChunkType}
    {d : List Nat} {C : Nat}
    (h1 : fromBE4 (listSlice value 0 4) = len)
    (h2 : len ≤ 4294967295)
    (h3 : 12 + len ≤ value.length)
    (h4 : chunkTypeTryFromList (listSlice value 4 8) = CtResult.ok t)
    (h5 : listSlice value 8 (8 + len) = d)
    (h6 : fromBE4 (listSlice value (8 + len) (8 + len + 4)) = C)
    (h7 : crc32 (listSlice value 4 (8 + len)) = C) :
    parseChunk value = PResult.ok ⟨len, t, d, C⟩ := by
  have hl4 : 4 ≤ value.length := by omega
  have hl8 : 8 ≤ value.length := by omega
  have hl8n : 8 + len ≤ value.length := by omega
  have hl12 : 8 + len + 4 ≤ value.length := by omega
  simp only [parseChunk, h1, h4]
  rw [if_pos hl4, if_neg (show ¬ 4294967295 < len by omega), if_pos hl8]
  rw [if_pos hl8n, if_pos hl12, h5, h6, h7]
  simp

/-- Constructor form of a checksum-mismatch failure: under the branch
conditions, the parser fails carrying the computed CRC as `expected`
and the stored CRC as `found`. -/
lemma parseChunk_eq_fail_mismatch {value : List Nat} {len : Nat}
    {t : ChunkType} {S C : Nat}
    (h1 : fromBE4 (listSlice value 0 4) = len)
    (h2 : len ≤ 4294967295)
    (h3 : 12 + len ≤ value.length)
    (h4 : chunkTypeTryFromList (listSlice value 4 8) = CtResult.ok t)
    (h6 : fromBE4 (listSlice value (8 + len) (8 + len + 4)) = S)
    (h7 : crc32 (listSlice value 4 (8 + len)) = C)
    (h8 : S ≠ C) :
    parseChunk value = PResult.fail (ChunkError.checksumMismatch C S) := by
  have hl4 : 4 ≤ value.length := by omega
  have hl8 : 8 ≤ value.length := by omega
  have hl8n : 8 + len ≤ value.length := by omega
  have hl12 : 8 + len + 4 ≤ value.length := by omega
  simp only [parseChunk, h1, h4]
  rw [if_pos hl4, if_neg (show ¬ 4294967295 < len by omega), if_pos hl8]
  rw [if_pos hl8n, if_pos hl12, h6, h7, if_pos h8]

/-- Inversion of a successful parse: what it implies about the input
buffer and the returned chunk. -/
lemma parseChunk_ok_inv {value : List Nat} {c : Chunk}
    (h : parseChunk value = PResult.ok c) :
    fromBE4 (listSlice value 0 4) = c.length ∧
    c.length ≤ 4294967295 ∧
    12 + c.length ≤ value.length ∧
    chunkTypeTryFromList (listSlice value 4 8) = CtResult.ok c.chunkType ∧
    c.data = listSlice value 8 (8 + c.length) ∧
    c.crc = fromBE4 (listSlice value (8 + c.length) (8 + c.length + 4)) ∧
    c.crc = crc32 (listSlice value 4 (8 + c.length)) := by
  simp only [parseChunk] at h
  split at h
  case isFalse => simp at h
  case isTrue h4 =>
    split at h
    case isTrue hbig => simp at h
    case isFalse hbig =>
      split at h
      case isFalse h8 => simp at h
      case isTrue h8 =>
        split at h
        next e heq => simp at h
        next ct heq =>
          split at h
          case isFalse hlen8 => simp at h
          case isTrue hlen8 =>
            split at h
            case isFalse hlen12 => simp at h
            case isTrue hlen12 =>
              split at h
              case isTrue hne => simp at h
              case isFalse hne =>
                injection h with h
                subst h
                refine ⟨rfl, ?_, ?_, heq, rfl, rfl, ?_⟩
                · show fromBE4 (listSlice value 0 4) ≤ 4294967295
                  omega
                · show 12 + fromBE4 (listSlice value 0 4) ≤ value.length
                  omega
                · simpa using hne

/-- The canonical fixture chunk: length 42, type "RuSt", the secret
message payload, CRC 2882656334. -/
lemma canonicalChunk_eq :
    Chunk.new rustType secretMessage = ⟨42, rustType, secretMessage, 2882656334⟩ := by
  simp only [Chunk.new, crc32_canonical, Chunk.mk.injEq]
  decide

/-- Parsing the 54-byte canonical serialization succeeds and yields the
canonical fixture chunk. -/
lemma parse_canonical :
    parseChunk canonicalChunkBytes = PResult.ok ⟨42, rustType, secretMessage, 2882656334⟩ := by
  apply parseChunk_eq_ok
  · decide
  · decide
  · decide
  · decide
  · decide
  · decide
  · rw [show listSlice canonicalChunkBytes 4 (8 + 42) = rustType.bytes ++ secretMessage from by decide]
    exact crc32_canonical

/-- C1: refuted as stated; actual behavior at the failing input. The
claim says a buffer whose big-endian length prefix is 2^31 =
0x80000000 fails with LengthTooLarge, but the code compares the length
against `2e31 as u32` = `u32::MAX` (a saturating float cast), so the
cap never fires: parsing proceeds past the check and panics on the
out-of-range payload slice instead of returning LengthTooLarge. -/
theorem c1_overlarge_length_crashes :
    parseChunk overlargeLengthBytes = PResult.crash ∧
    parseChunk overlargeLengthBytes ≠ PResult.fail ChunkError.lengthTooLarge := by
  decide

/-- C2: refuted as stated; actual behavior at the failing inputs. The
claim says every buffer shorter than 12 bytes, or shorter than
12 + length bytes, fails by returning a Truncated error with no panic;
the code instead panics on an out-of-bounds slice index (modelled as
`crash`, distinct from every error return) on the empty buffer, on an
11-byte buffer, and on a 53-byte truncation of the canonical chunk. -/
theorem c2_truncated_inputs_crash :
    parseChunk [] = PResult.crash ∧
    parseChunk (canonicalChunkBytes.take 11) = PResult.crash ∧
    parseChunk (canonicalChunkBytes.take 53) = PResult.crash := by
  decide

/-- C3: ChunkType construction from four bytes succeeds exactly when
every byte is ASCII alphabetic (0x41-0x5A or 0x61-0x7A), stores the
input bytes unchanged, and the only error it can return is the
not-ASCII-alphabetic one: the reserved-bit branch (which compares
`b & 0x20` with 1) never fires, so a type with a lower-case third byte
such as "Rust" is accepted and reserved-bit validity stays a queryable
predicate. -/
theorem c3_tryFrom_iff_alphabetic (b0 b1 b2 b3 : Nat) :
    ChunkType.tryFrom b0 b1 b2 b3 =
      if isAsciiAlphabetic b0 && isAsciiAlphabetic b1 &&
          isAsciiAlphabetic b2 && isAsciiAlphabetic b3
      then CtResult.ok ⟨b0, b1, b2, b3⟩
      else CtResult.error ChunkError.notAsciiAlphabetic :=
  tryFrom_eq b0 b1 b2 b3

/-- A constructed chunk whose payload has exactly 2^32 bytes stores a
wrapped length that no longer matches its data. -/
lemma new_length_ne {t : ChunkType} {d : List Nat} (hd : d.length = 4294967296) :
    ¬ ((Chunk.new t d).length = (Chunk.new t d).data.length) := by
  intro h
  have h1 : (Chunk.new t d).length = d.length % 4294967296 := rfl
  have h2 : (Chunk.new t d).data = d := rfl
  rw [h1, h2, hd] at h
  norm_num at h

/-- C4 counterexample: the length invariant fails for a constructed
chunk whose payload has exactly 2^32 bytes, because `Chunk::new`
stores `data.len() as u32`, which truncates modulo 2^32 to 0. -/
theorem c4_counterexample_length_truncation :
    ¬ ((Chunk.new rustType (List.replicate 4294967296 0)).length
        = (Chunk.new rustType (List.replicate 4294967296 0)).data.length) :=
  new_length_ne (List.length_replicate 4294967296 0)

/-- C4 (amended): every chunk built by the constructor from a payload
of fewer than 2^32 bytes, and every chunk returned by the parser,
satisfies both invariants: the stored length equals the byte count of
the data, and the stored CRC is the CRC-32/ISO-HDLC of the four
chunk-type bytes followed by the payload bytes. -/
theorem c4_invariants :
    (∀ (t : ChunkType) (p : List Nat), p.length < 4294967296 →
      (Chunk.new t p).length = (Chunk.new t p).data.length ∧
      (Chunk.new t p).crc = crc32 ((Chunk.new t p).chunkType.bytes ++ (Chunk.new t p).data)) ∧
    (∀ (buf : List Nat) (c : Chunk), parseChunk buf = PResult.ok c →
      c.length = c.data.length ∧
      c.crc = crc32 (c.chunkType.bytes ++ c.data)) := by
  constructor
  · intro t p hp
    refine ⟨?_, rfl⟩
    show p.length % 4294967296 = p.length
    exact Nat.mod_eq_of_lt hp
  · intro buf c h
    obtain ⟨hlen, hcap, hsz, hty, hdata, hstored, hcrc⟩ := parseChunk_ok_inv h
    have hbytes : c.chunkType.bytes = listSlice buf 4 8 := chunkTypeTryFromList_bytes hty
    constructor
    · rw [hdata]
      rw [listSlice_length (by omega)]
      omega
    · rw [hcrc, hdata, hbytes]
      rw [listSlice_concat buf (by omega) (by omega)]

/-- C4 witness: both halves of the invariant theorem applied to the
canonical fixture, once through the constructor and once through the
parser. -/
theorem c4_invariants_witness :
    ((Chunk.new rustType secretMessage).length
        = (Chunk.new rustType secretMessage).data.length ∧
      (Chunk.new rustType secretMessage).crc
        = crc32 ((Chunk.new rustType secretMessage).chunkType.bytes
            ++ (Chunk.new rustType secretMessage).data)) ∧
    ((⟨42, rustType, secretMessage, 2882656334⟩ : Chunk).length
        = (⟨42, rustType, secretMessage, 2882656334⟩ : Chunk).data.length ∧
      (⟨42, rustType, secretMessage, 2882656334⟩ : Chunk).crc
        = crc32 ((⟨42, rustType, secretMessage, 2882656334⟩ : Chunk).chunkType.bytes
            ++ (⟨42, rustType, secretMessage, 2882656334⟩ : Chunk).data)) :=
  ⟨c4_invariants.1 rustType secretMessage (by decide),
   c4_invariants.2 canonicalChunkBytes ⟨42, rustType, secretMessage, 2882656334⟩ parse_canonical⟩

/-- Decomposition of the chunk wire layout: in a buffer made of a
4-byte block, a 4-byte block, a payload, and a 4-byte block, every
slice the parser takes reads back the corresponding component. -/
lemma slices_of_quad {A T P C4 : List Nat}
    (hA : A.length = 4) (hT : T.length = 4) (hC : C4.length = 4) :
    listSlice (A ++ (T ++ (P ++ C4))) 0 4 = A ∧
    listSlice (A ++ (T ++ (P ++ C4))) 4 8 = T ∧
    listSlice (A ++ (T ++ (P ++ C4))) 8 (8 + P.length) = P ∧
    listSlice (A ++ (T ++ (P ++ C4))) (8 + P.length) (8 + P.length + 4) = C4 ∧
    listSlice (A ++ (T ++ (P ++ C4))) 4 (8 + P.length) = T ++ P ∧
    (A ++ (T ++ (P ++ C4))).length = 12 + P.length := by
  have d4 : (A ++ (T ++ (P ++ C4))).drop 4 = T ++ (P ++ C4) := by
    rw [← hA, List.drop_left]
  have d8 : (A ++ (T ++ (P ++ C4))).drop 8 = P ++ C4 := by
    rw [show (8 : Nat) = 4 + 4 from rfl, ← List.drop_drop, d4, ← hT, List.drop_left]
  have dn : (A ++ (T ++ (P ++ C4))).drop (8 + P.length) = C4 := by
    rw [← List.drop_drop, d8, List.drop_left]
  refine ⟨?_, ?_, ?_, ?_, ?_, ?_⟩
  · simp only [listSlice, List.drop_zero, Nat.sub_zero]
    rw [← hA, List.take_left]
  · simp only [listSlice, d4]
    rw [show (8 : Nat) - 4 = 4 from rfl, ← hT, List.take_left]
  · simp only [listSlice, d8, Nat.add_sub_cancel_left]
    exact List.take_left P C4
  · simp only [listSlice, dn, Nat.add_sub_cancel_left]
    rw [← hC, List.take_length]
  · simp only [listSlice, d4]
    rw [show 8 + P.length - 4 = 4 + P.length by omega, ← hT, List.take_append]
    rw [List.take_left]
  · simp only [List.length_append, hA, hT, hC]
    omega

/-- C5: round-trip. For every chunk type whose four bytes are ASCII
alphabetic and every byte payload of at most 2^20 bytes, parsing the
serialization of the constructed chunk returns exactly the constructed
chunk (same length, chunk type, data, and CRC). -/
theorem c5_roundtrip (t : ChunkType) (p : List Nat)
    (ht : allAlphabetic t = true) (hp : p.length ≤ 1048576)
    (hb : ∀ x ∈ p, x < 256) :
    parseChunk (Chunk.new t p).asBytes = PResult.ok (Chunk.new t p) := by
  have hn : p.length < 4294967296 := lt_of_le_of_lt hp (by norm_num)
  have halpha := ht
  simp only [allAlphabetic, Bool.and_eq_true] at halpha
  obtain ⟨⟨⟨h0, h1⟩, h2⟩, h3⟩ := halpha
  have hCb : ∀ x ∈ t.bytes ++ p, x < 256 := by
    intro x hx
    rcases List.mem_append.mp hx with hx | hx
    · simp only [ChunkType.bytes, List.mem_cons, List.not_mem_nil, or_false] at hx
      rcases hx with rfl | rfl | rfl | rfl
      · exact isAsciiAlphabetic_lt h0
      · exact isAsciiAlphabetic_lt h1
      · exact isAsciiAlphabetic_lt h2
      · exact isAsciiAlphabetic_lt h3
    · exact hb x hx
  have hC : crc32 (t.bytes ++ p) < 4294967296 := crc32_lt hCb
  have hbuf : (Chunk.new t p).asBytes
      = toBE4 p.length ++ (t.bytes ++ (p ++ toBE4 (crc32 (t.bytes ++ p)))) := by
    show toBE4 (p.length % 4294967296) ++ t.bytes ++ p ++ toBE4 (crc32 (t.bytes ++ p))
        = toBE4 p.length ++ (t.bytes ++ (p ++ toBE4 (crc32 (t.bytes ++ p))))
    rw [Nat.mod_eq_of_lt hn]
    simp [List.append_assoc]
  obtain ⟨s1, s2, s3, s4, s5, hlen⟩ :=
    @slices_of_quad (toBE4 p.length) t.bytes p (toBE4 (crc32 (t.bytes ++ p)))
      (by simp [toBE4]) rfl (by simp [toBE4])
  have hmk : Chunk.new t p = ⟨p.length, t, p, crc32 (t.bytes ++ p)⟩ := by
    unfold Chunk.new
    rw [Nat.mod_eq_of_lt hn]
  rw [hbuf, hmk]
  apply parseChunk_eq_ok
  · rw [s1]
    exact fromBE4_toBE4 hn
  · omega
  · rw [hlen]
  · rw [s2]
    exact chunkTypeTryFromList_of_allAlphabetic ht
  · exact s3
  · rw [s4]
    exact fromBE4_toBE4 hC
  · rw [s5]

/-- C5 witness: the round-trip theorem applied to the canonical
fixture type and payload. -/
theorem c5_roundtrip_witness :
    parseChunk (Chunk.new rustType secretMessage).asBytes
      = PResult.ok (Chunk.new rustType secretMessage) :=
  c5_roundtrip rustType secretMessage (by decide) (by decide) (by decide)

/-- C6 counterexample: the serialization of the canonical fixture does
not end with the bytes AB D1 D7 CE. Its CRC is 2882656334, whose hex
form is 0xABD1D84E, so the trailing bytes are AB D1 D8 4E; the spec's
hex rendering of the (correct) decimal CRC is wrong. -/
theorem c6_counterexample_trailing_bytes :
    ¬ ((Chunk.new rustType secretMessage).asBytes.drop 50 = [171, 209, 215, 206]) := by
  rw [canonicalChunk_eq]
  decide

/-- C6 (amended): constructing a chunk from type "RuSt" and the 42-byte
canonical payload yields length 42, CRC 2882656334, size 54, and a
serialization that begins with 00 00 00 2A 52 75 53 74 and ends with
AB D1 D8 4E (the big-endian bytes of 2882656334). -/
theorem c6_canonical_fixture :
    (Chunk.new rustType secretMessage).length = 42 ∧
    (Chunk.new rustType secretMessage).crc = 2882656334 ∧
    (Chunk.new rustType secretMessage).size = 54 ∧
    (Chunk.new rustType secretMessage).asBytes.take 8 = [0, 0, 0, 42, 82, 117, 83, 116] ∧
    (Chunk.new rustType secretMessage).asBytes.drop 50 = [171, 209, 216, 78] := by
  rw [canonicalChunk_eq]
  decide

/-- C7: for every input buffer that passes the length-cap, size, and
chunk-type checks, parsing fails with a checksum-mismatch error
carrying the computed CRC as the expected value and the stored CRC as
the found value exactly when the big-endian u32 stored at offset
8+length differs from the CRC-32/ISO-HDLC over bytes 4..8+length (the
type and payload bytes, not the length prefix). -/
theorem c7_checksum_mismatch_iff (value : List Nat) (t : ChunkType)
    (hcap : fromBE4 (listSlice value 0 4) ≤ 4294967295)
    (hsz : 12 + fromBE4 (listSlice value 0 4) ≤ value.length)
    (hty : chunkTypeTryFromList (listSlice value 4 8) = CtResult.ok t) :
    parseChunk value = PResult.fail (ChunkError.checksumMismatch
        (crc32 (listSlice value 4 (8 + fromBE4 (listSlice value 0 4))))
        (fromBE4 (listSlice value (8 + fromBE4 (listSlice value 0 4))
          (8 + fromBE4 (listSlice value 0 4) + 4)))) ↔
      fromBE4 (listSlice value (8 + fromBE4 (listSlice value 0 4))
          (8 + fromBE4 (listSlice value 0 4) + 4))
        ≠ crc32 (listSlice value 4 (8 + fromBE4 (listSlice value 0 4))) := by
  constructor
  · intro h heq
    have hok := parseChunk_eq_ok (t := t) rfl hcap hsz hty rfl rfl heq.symm
    rw [hok] at h
    exact PResult.noConfusion h
  · intro hne
    exact parseChunk_eq_fail_mismatch rfl hcap hsz hty rfl rfl hne

/-- C7 witness: the canonical fixture with its stored CRC changed to
2882656333 fails with expected 2882656334 and found 2882656333. -/
theorem c7_checksum_mismatch_witness :
    parseChunk tamperedChunkBytes
      = PResult.fail (ChunkError.checksumMismatch 2882656334 2882656333) := by
  have e1 : crc32 (listSlice tamperedChunkBytes 4
      (8 + fromBE4 (listSlice tamperedChunkBytes 0 4))) = 2882656334 := by
    rw [show listSlice tamperedChunkBytes 4
        (8 + fromBE4 (listSlice tamperedChunkBytes 0 4))
        = rustType.bytes ++ secretMessage from by decide]
    exact crc32_canonical
  have e2 : fromBE4 (listSlice tamperedChunkBytes
      (8 + fromBE4 (listSlice tamperedChunkBytes 0 4))
      (8 + fromBE4 (listSlice tamperedChunkBytes 0 4) + 4)) = 2882656333 := by
    decide
  have h := (c7_checksum_mismatch_iff tamperedChunkBytes rustType
      (by decide) (by decide) (by decide)).mpr (by rw [e1, e2]; norm_num)
  rw [e1, e2] at h
  exact h

/-- For a byte, the predicate test `(b &&& 32) >>> 5 == 0` holds
exactly when bit 0x20 is clear. -/
lemma bit5_clear_iff : ∀ b : Nat, b < 256 →
    (((((b &&& 32) >>> 5) == 0) = true) ↔ b &&& 32 = 0) := by
  decide

/-- For a byte, the predicate test `(b &&& 32) >>> 5 == 1` holds
exactly when bit 0x20 is set. -/
lemma bit5_set_iff : ∀ b : Nat, b < 256 →
    (((((b &&& 32) >>> 5) == 1) = true) ↔ b &&& 32 = 32) := by
  decide

/-- Toggling bit 0x20 of a byte flips the clear-test. -/
lemma bit5_toggle_clear : ∀ b : Nat, b < 256 →
    ((((b ^^^ 32) &&& 32) >>> 5) == 0) = !(((b &&& 32) >>> 5) == 0) := by
  decide

/-- Toggling bit 0x20 of a byte flips the set-test. -/
lemma bit5_toggle_set : ∀ b : Nat, b < 256 →
    ((((b ^^^ 32) &&& 32) >>> 5) == 1) = !(((b &&& 32) >>> 5) == 1) := by
  decide

/-- C8: for every valid (ASCII-alphabetic) chunk type, is_critical
reads bit 0x20 of byte 0 (true iff clear), is_public bit 0x20 of byte
1 (true iff clear), is_reserved_bit_valid bit 0x20 of byte 2 (true iff
clear), is_safe_to_copy bit 0x20 of byte 3 (true iff set); and
toggling bit 0x20 of any one byte flips exactly the corresponding
predicate and leaves the other three unchanged. -/
theorem c8_predicate_bits (t : ChunkType) (h : allAlphabetic t = true) :
    (t.isCritical = true ↔ t.b0 &&& 32 = 0) ∧
    (t.isPublic = true ↔ t.b1 &&& 32 = 0) ∧
    (t.isReservedBitValid = true ↔ t.b2 &&& 32 = 0) ∧
    (t.isSafeToCopy = true ↔ t.b3 &&& 32 = 32) ∧
    ((⟨t.b0 ^^^ 32, t.b1, t.b2, t.b3⟩ : ChunkType).isCritical = !t.isCritical ∧
      (⟨t.b0 ^^^ 32, t.b1, t.b2, t.b3⟩ : ChunkType).isPublic = t.isPublic ∧
      (⟨t.b0 ^^^ 32, t.b1, t.b2, t.b3⟩ : ChunkType).isReservedBitValid = t.isReservedBitValid ∧
      (⟨t.b0 ^^^ 32, t.b1, t.b2, t.b3⟩ : ChunkType).isSafeToCopy = t.isSafeToCopy) ∧
    ((⟨t.b0, t.b1 ^^^ 32, t.b2, t.b3⟩ : ChunkType).isPublic = !t.isPublic ∧
      (⟨t.b0, t.b1 ^^^ 32, t.b2, t.b3⟩ : ChunkType).isCritical = t.isCritical ∧
      (⟨t.b0, t.b1 ^^^ 32, t.b2, t.b3⟩ : ChunkType).isReservedBitValid = t.isReservedBitValid ∧
      (⟨t.b0, t.b1 ^^^ 32, t.b2, t.b3⟩ : ChunkType).isSafeToCopy = t.isSafeToCopy) ∧
    ((⟨t.b0, t.b1, t.b2 ^^^ 32, t.b3⟩ : ChunkType).isReservedBitValid = !t.isReservedBitValid ∧
      (⟨t.b0, t.b1, t.b2 ^^^ 32, t.b3⟩ : ChunkType).isCritical = t.isCritical ∧
      (⟨t.b0, t.b1, t.b2 ^^^ 32, t.b3⟩ : ChunkType).isPublic = t.isPublic ∧
      (⟨t.b0, t.b1, t.b2 ^^^ 32, t.b3⟩ : ChunkType).isSafeToCopy = t.isSafeToCopy) ∧
    ((⟨t.b0, t.b1, t.b2, t.b3 ^^^ 32⟩ : ChunkType).isSafeToCopy = !t.isSafeToCopy ∧
      (⟨t.b0, t.b1, t.b2, t.b3 ^^^ 32⟩ : ChunkType).isCritical = t.isCritical ∧
      (⟨t.b0, t.b1, t.b2, t.b3 ^^^ 32⟩ : ChunkType).isPublic = t.isPublic ∧
      (⟨t.b0, t.b1, t.b2, t.b3 ^^^ 32⟩ : ChunkType).isReservedBitValid = t.isReservedBitValid) := by
  simp only [allAlphabetic, Bool.and_eq_true] at h
  obtain ⟨⟨⟨h0, h1⟩, h2⟩, h3⟩ := h
  have hb0 := isAsciiAlphabetic_lt h0
  have hb1 := isAsciiAlphabetic_lt h1
  have hb2 := isAsciiAlphabetic_lt h2
  have hb3 := isAsciiAlphabetic_lt h3
  exact ⟨bit5_clear_iff t.b0 hb0, bit5_clear_iff t.b1 hb1, bit5_clear_iff t.b2 hb2,
    bit5_set_iff t.b3 hb3,
    ⟨bit5_toggle_clear t.b0 hb0, rfl, rfl, rfl⟩,
    ⟨bit5_toggle_clear t.b1 hb1, rfl, rfl, rfl⟩,
    ⟨bit5_toggle_clear t.b2 hb2, rfl, rfl, rfl⟩,
    ⟨bit5_toggle_set t.b3 hb3, rfl, rfl, rfl⟩⟩

/-- C8 witness: the predicate-and-toggle theorem applied to the
chunk type "RuSt". -/
theorem c8_predicate_bits_witness :
    (rustType.isCritical = true ↔ rustType.b0 &&& 32 = 0) ∧
    (rustType.isPublic = true ↔ rustType.b1 &&& 32 = 0) ∧
    (rustType.isReservedBitValid = true ↔ rustType.b2 &&& 32 = 0) ∧
    (rustType.isSafeToCopy = true ↔ rustType.b3 &&& 32 = 32) ∧
    ((⟨rustType.b0 ^^^ 32, rustType.b1, rustType.b2, rustType.b3⟩ : ChunkType).isCritical = !rustType.isCritical ∧
      (⟨rustType.b0 ^^^ 32, rustType.b1, rustType.b2, rustType.b3⟩ : ChunkType).isPublic = rustType.isPublic ∧
      (⟨rustType.b0 ^^^ 32, rustType.b1, rustType.b2, rustType.b3⟩ : ChunkType).isReservedBitValid = rustType.isReservedBitValid ∧
      (⟨rustType.b0 ^^^ 32, rustType.b1, rustType.b2, rustType.b3⟩ : ChunkType).isSafeToCopy = rustType.isSafeToCopy) ∧
    ((⟨rustType.b0, rustType.b1 ^^^ 32, rustType.b2, rustType.b3⟩ : ChunkType).isPublic = !rustType.isPublic ∧
      (⟨rustType.b0, rustType.b1 ^^^ 32, rustType.b2, rustType.b3⟩ : ChunkType).isCritical = rustType.isCritical ∧
      (⟨rustType.b0, rustType.b1 ^^^ 32, rustType.b2, rustType.b3⟩ : ChunkType).isReservedBitValid = rustType.isReservedBitValid ∧
      (⟨rustType.b0, rustType.b1 ^^^ 32, rustType.b2, rustType.b3⟩ : ChunkType).isSafeToCopy = rustType.isSafeToCopy) ∧
    ((⟨rustType.b0, rustType.b1, rustType.b2 ^^^ 32, rustType.b3⟩ : ChunkType).isReservedBitValid = !rustType.isReservedBitValid ∧
      (⟨rustType.b0, rustType.b1, rustType.b2 ^^^ 32, rustType.b3⟩ : ChunkType).isCritical = rustType.isCritical ∧
      (⟨rustType.b0, rustType.b1, rustType.b2 ^^^ 32, rustType.b3⟩ : ChunkType).isPublic = rustType.isPublic ∧
      (⟨rustType.b0, rustType.b1, rustType.b2 ^^^ 32, rustType.b3⟩ : ChunkType).isSafeToCopy = rustType.isSafeToCopy) ∧
    ((⟨rustType.b0, rustType.b1, rustType.b2, rustType.b3 ^^^ 32⟩ : ChunkType).isSafeToCopy = !rustType.isSafeToCopy ∧
      (⟨rustType.b0, rustType.b1, rustType.b2, rustType.b3 ^^^ 32⟩ : ChunkType).isCritical = rustType.isCritical ∧
      (⟨rustType.b0, rustType.b1, rustType.b2, rustType.b3 ^^^ 32⟩ : ChunkType).isPublic = rustType.isPublic ∧
      (⟨rustType.b0, rustType.b1, rustType.b2, rustType.b3 ^^^ 32⟩ : ChunkType).isReservedBitValid = rustType.isReservedBitValid) :=
  c8_predicate_bits rustType (by decide)

/-- C9: for every chunk satisfying the data-model invariants (its
stored length equals its payload size and respects the PNG cap
2^31-1), the serialization is exactly the big-endian u32 length, the
four chunk-type bytes, the payload, and the big-endian u32 CRC, and
its byte count equals size(), which equals 12 + length(). -/
theorem c9_serialization_layout (c : Chunk) (h1 : c.length = c.data.length)
    (h2 : c.length ≤ 2147483647) :
    c.asBytes = toBE4 c.length ++ c.chunkType.bytes ++ c.data ++ toBE4 c.crc ∧
    c.asBytes.length = c.size ∧
    c.size = 12 + c.length := by
  have hsize : c.size = 12 + c.length := by
    show (12 + c.length) % 4294967296 = 12 + c.length
    exact Nat.mod_eq_of_lt (by omega)
  refine ⟨rfl, ?_, hsize⟩
  show (toBE4 c.length ++ c.chunkType.bytes ++ c.data ++ toBE4 c.crc).length = c.size
  rw [hsize]
  simp only [List.length_append, toBE4, ChunkType.bytes, List.length_cons,
    List.length_nil]
  omega

/-- C9 witness: the layout theorem applied to the canonical fixture
chunk. -/
theorem c9_serialization_layout_witness :
    (Chunk.new rustType secretMessage).asBytes
        = toBE4 (Chunk.new rustType secretMessage).length
          ++ (Chunk.new rustType secretMessage).chunkType.bytes
          ++ (Chunk.new rustType secretMessage).data
          ++ toBE4 (Chunk.new rustType secretMessage).crc ∧
    (Chunk.new rustType secretMessage).asBytes.length
        = (Chunk.new rustType secretMessage).size ∧
    (Chunk.new rustType secretMessage).size
        = 12 + (Chunk.new rustType secretMessage).length :=
  c9_serialization_layout (Chunk.new rustType secretMessage)
    (by rw [canonicalChunk_eq]; decide) (by rw [canonicalChunk_eq]; decide)

/-- C10: a buffer that parses successfully still parses to the very
same chunk after appending arbitrary trailing bytes: the parser reads
only the first 12 + length bytes. -/
theorem c10_trailing_bytes_ignored (buf extra : List Nat) (c : Chunk)
    (h : parseChunk buf = PResult.ok c) :
    parseChunk (buf ++ extra) = PResult.ok c := by
  obtain ⟨hlen, hcap, hsz, hty, hdata, hstored, hcrc⟩ := parseChunk_ok_inv h
  have e1 : listSlice (buf ++ extra) 0 4 = listSlice buf 0 4 :=
    listSlice_append_left extra (by omega)
  have e2 : listSlice (buf ++ extra) 4 8 = listSlice buf 4 8 :=
    listSlice_append_left extra (by omega)
  have e3 : listSlice (buf ++ extra) 8 (8 + c.length) = listSlice buf 8 (8 + c.length) :=
    listSlice_append_left extra (by omega)
  have e4 : listSlice (buf ++ extra) (8 + c.length) (8 + c.length + 4)
      = listSlice buf (8 + c.length) (8 + c.length + 4) :=
    listSlice_append_left extra (by omega)
  have e5 : listSlice (buf ++ extra) 4 (8 + c.length) = listSlice buf 4 (8 + c.length) :=
    listSlice_append_left extra (by omega)
  have hok : parseChunk (buf ++ extra)
      = PResult.ok ⟨c.length, c.chunkType, c.data, c.crc⟩ := by
    apply parseChunk_eq_ok
    · rw [e1]
      exact hlen
    · exact hcap
    · rw [List.length_append]
      omega
    · rw [e2]
      exact hty
    · rw [e3]
      exact hdata.symm
    · rw [e4]
      exact hstored.symm
    · rw [e5]
      exact hcrc.symm
  rw [hok]

/-- C10 witness: the canonical serialization with three trailing bytes
appended still parses to the canonical fixture chunk. -/
theorem c10_trailing_bytes_ignored_witness :
    parseChunk (canonicalChunkBytes ++ [0, 1, 2])
      = PResult.ok ⟨42, rustType, secretMessage, 2882656334⟩ :=
  c10_trailing_bytes_ignored canonicalChunkBytes [0, 1, 2] _ parse_canonical
